import Mathlib

/-!
Verification of the tokenized real-estate ownership backend (src/src/index.ts).

Modelling conventions:
  * JavaScript numbers that the code uses for share counts and wallet balances
    are modelled as `Int`.  The code validates them with `isNaN` checks and
    positivity comparisons before use; a non-numeric body field is modelled as
    `Option.none`, a numeric one as `some n`.
  * `tokenizedShares` is an array of strings of the form "name:count"; the code
    always manipulates an entry by `split(":")`, `pop()` (the count) and
    `join(":")` (the name).  We model an entry in this parsed form, as a pair
    `String × Int`.  Every entry the code ever writes has a numeric count
    (creation writes the validated `shares`, transfers write results of
    arithmetic), so the parsed form is faithful.
  * The two `StableBTreeMap`s are modelled as association lists keyed by
    strings; `get` finds the first binding, `insert` replaces the binding,
    `remove` erases it.  Azle's `get` returns a deserialized copy, so mutating
    the in-memory record does not change the store until `insert` is called;
    accordingly the handlers are functions from a store to a new store.
  * `uuidv4()` and `ic.time()` are external inputs, modelled as parameters
    (`id`, `now`).
  * Express route handlers are modelled as total functions returning a result
    tag (one constructor per distinct response branch of the handler) together
    with the store after the request.  `statusOf` maps each tag to the HTTP
    status code the handler sends.
-/

/-- User record (class `User`): username, email, password, walletTokens.
`walletTokens` is held as a string in the code but only ever used through
numeric coercion `(* 1)`; it is modelled as `Int`. -/
structure User where
  username : String
  email : String
  password : String
  walletTokens : Int
deriving Repr, DecidableEq

/-- Property record (class `RealEstateProperty`); `tokenizedShares` entries are
the parsed "name:count" pairs, `createdAt`/`updatedAt` are timestamps. -/
structure RealEstateProperty where
  id : String
  address : String
  owner : String
  tokenizedShares : List (String × Int)
  transactionHistory : List String
  deedURL : String
  createdAt : Int
  updatedAt : Option Int
deriving Repr, DecidableEq

/-- Association-list store, the model of `StableBTreeMap<string, α>`. -/
abbrev Store (α : Type) := List (String × α)

/-- Model of `storage.get(k)`: the value bound to `k`, if any. -/
def storeGet {α : Type} (s : Store α) (k : String) : Option α :=
  match s.find? (fun e => e.1 = k) with
  | none => none
  | some e => some e.2

/-- Model of `storage.insert(k, v)`: replaces any existing binding of `k`. -/
def storeInsert {α : Type} (s : Store α) (k : String) (v : α) : Store α :=
  (k, v) :: s.eraseP (fun e => e.1 = k)

/-- Model of `storage.remove(k)`: erases the binding of `k`. -/
def storeRemove {α : Type} (s : Store α) (k : String) : Store α :=
  s.eraseP (fun e => e.1 = k)

/-- Model of `usersStorage.values().some((user) => user.username === x)`:
does some stored user have username `x`? -/
def userRegistered (users : Store User) (x : String) : Bool :=
  users.any (fun e => e.2.username = x)

/-- First scan of the transfer handler (lines 230-238): iterate over all
entries, remembering the count of each entry whose parsed name equals `frm`;
the last match wins because each match overwrites `fromShares`. -/
def lookupFromShares (frm : String) (l : List (String × Int)) : Option Int :=
  l.foldl (fun acc e => if e.1 = frm then some e.2 else acc) none

/-- Share-update loop of the transfer handler (lines 247-266).  Each entry
whose name equals `frm` is replaced by the string template `name:${...}` with
the debited count — NOTE: the code writes the literal key "name", the template
is missing the `${}` around `name` — and each other entry whose name equals
`to` is likewise replaced by "name" with the credited count, setting
`isToSharesSet`.  The writes are at the visited index only, so later
iterations still see the original entries; this makes the loop a `map`. -/
def updateSharesEntry (frm dst : String) (shares : Int) (e : String × Int) :
    String × Int :=
  if e.1 = frm then ("name", e.2 - shares)
  else if e.1 = dst then ("name", e.2 + shares)
  else e

/-- Whether the credit branch ran for some entry (`isToSharesSet`). -/
def isToSharesSet (frm dst : String) (l : List (String × Int)) : Bool :=
  l.any (fun e => ¬ e.1 = frm ∧ e.1 = dst)

/-- Lines 247-269: update every entry, and if no entry was credited, push a
fresh `${to}:${shares}` entry at the end. -/
def updateShares (frm dst : String) (shares : Int) (l : List (String × Int)) :
    List (String × Int) :=
  let l2 := l.map (updateSharesEntry frm dst shares)
  if isToSharesSet frm dst l then l2 else l2 ++ [(dst, shares)]

/-- Ownership-recompute scan (lines 275-286): running maximum starts at `-1`
and the candidate owner at the current owner; an entry replaces them only when
its count is strictly greater than the running maximum. -/
def ownerScan (o : String) (m : Int) : List (String × Int) → String
  | [] => o
  | e :: rest => if e.2 > m then ownerScan e.1 e.2 rest else ownerScan o m rest

/-- Lines 274-287: `newOwner = property.owner; mostShares = -1; scan`. -/
def recomputeOwner (o : String) (l : List (String × Int)) : String :=
  ownerScan o (-1) l

/-- Result tags of the POST /transfer/:id handler, one per response branch. -/
inductive TransferResult where
  | invalidInput : TransferResult
  | notFound : TransferResult
  | insufficientShares : TransferResult
  | toNotRegistered : TransferResult
  | ok : RealEstateProperty → TransferResult
deriving Repr, DecidableEq

/-- HTTP status the transfer handler sends for each branch. -/
def TransferResult.status : TransferResult → Nat
  | .invalidInput => 400
  | .notFound => 400
  | .insufficientShares => 400
  | .toNotRegistered => 400
  | .ok _ => 200

/-- POST /transfer/:id handler (lines 207-294).  Models the request with path
parameter `id` and body fields `frm`, `to`, `shares`; `shares = none` stands
for a missing or non-numeric field.  Validation order follows the code:
emptiness/positivity of the inputs, then property lookup, then the
`fromShares` scan and insufficiency check, then registration of `to`. -/
def transferHandler (users : Store User) (props : Store RealEstateProperty)
    (id frm dst : String) (shares : Option Int) :
    TransferResult × Store RealEstateProperty :=
  if id = "" then (.invalidInput, props)
  else
    match shares with
    | none => (.invalidInput, props)
    | some sh =>
      if frm = "" ∨ dst = "" ∨ sh ≤ 0 then (.invalidInput, props)
      else
        match storeGet props id with
        | none => (.notFound, props)
        | some p =>
          match lookupFromShares frm p.tokenizedShares with
          | none => (.insufficientShares, props)
          | some fs =>
            if fs < sh then (.insufficientShares, props)
            else if userRegistered users dst then
              let newShares := updateShares frm dst sh p.tokenizedShares
              let p2 : RealEstateProperty :=
                { p with
                  tokenizedShares := newShares,
                  transactionHistory := p.transactionHistory ++
                    [toString sh ++ " transferred from " ++ frm ++ " to " ++ dst],
                  owner := recomputeOwner p.owner newShares }
              (.ok p2, storeInsert props p2.id p2)
            else (.toNotRegistered, props)

/-- POST /properties handler success path (lines 89-107): the created property
for validated inputs, with the fresh uuid and current time as parameters. -/
def createProperty (address owner deedURL : String) (shares : Int)
    (id : String) (now : Int) : RealEstateProperty :=
  { id := id
    address := address
    owner := owner
    tokenizedShares := [(owner, shares)]
    transactionHistory := ["Property created by " ++ owner]
    deedURL := deedURL
    createdAt := now
    updatedAt := none }

/-- Sum of the parsed counts of a share list. -/
def sumShares (l : List (String × Int)) : Int :=
  (l.map (fun e => e.2)).sum

/-- Result tags of the POST /users/deposit handler, one per response branch. -/
inductive DepositResult where
  | invalidAmount : DepositResult
  | userMissing : DepositResult
  | ok : User → DepositResult
deriving Repr, DecidableEq

/-- HTTP status the deposit handler sends for each branch: the code sends 404
on the invalid-amount branch (line 72) and 400 on the unknown-user branch
(line 82). -/
def DepositResult.status : DepositResult → Nat
  | .invalidAmount => 404
  | .userMissing => 400
  | .ok _ => 200

/-- POST /users/deposit handler (lines 68-84).  `amount = none` models a
missing or non-numeric body field; `some 0` is rejected too because the code
tests JavaScript truthiness (`!amount`) before `isNaN`.  On success the new
balance is the numeric coercion sum `(walletTokens * 1) + (amount * 1)`. -/
def depositHandler (users : Store User) (username : String)
    (amount : Option Int) : DepositResult × Store User :=
  if username = "" ∨ amount = none ∨ amount = some 0 then
    (.invalidAmount, users)
  else
    match storeGet users username, amount with
    | some user, some a =>
      let user2 : User := { user with walletTokens := user.walletTokens + a }
      (.ok user2, storeInsert users username user2)
    | _, _ => (.userMissing, users)

/-- Balance of a stored user, when present. -/
def balanceOf (users : Store User) (username : String) : Option Int :=
  (storeGet users username).map (fun u => u.walletTokens)

/-- Result tags of the PUT /properties/:id handler, one per response branch. -/
inductive UpdateResult where
  | invalidInput : UpdateResult
  | ownerNotRegistered : UpdateResult
  | notFound : UpdateResult
  | notOwner : UpdateResult
  | ok : RealEstateProperty → UpdateResult
deriving Repr, DecidableEq

/-- HTTP status the update handler sends for each branch; note the unknown-id
branch sends 400 (line 156), not 404. -/
def UpdateResult.status : UpdateResult → Nat
  | .invalidInput => 400
  | .ownerNotRegistered => 400
  | .notFound => 400
  | .notOwner => 400
  | .ok _ => 200

/-- PUT /properties/:id handler (lines 138-170).  Checks, in code order:
non-empty id, non-empty body fields, the submitted owner registered, the
property present, and the submitted owner equal to the current owner
(line 159); then replaces address, deedURL and updatedAt. -/
def updateHandler (users : Store User) (props : Store RealEstateProperty)
    (id owner address deedURL : String) (now : Int) :
    UpdateResult × Store RealEstateProperty :=
  if id = "" then (.invalidInput, props)
  else if owner = "" ∨ address = "" ∨ deedURL = "" then (.invalidInput, props)
  else if userRegistered users owner then
    match storeGet props id with
    | none => (.notFound, props)
    | some p =>
      if p.owner ≠ owner then (.notOwner, props)
      else
        let p2 : RealEstateProperty :=
          { p with address := address, deedURL := deedURL,
                   updatedAt := some now }
        (.ok p2, storeInsert props p.id p2)
  else (.ownerNotRegistered, props)

/-- Result tags of the DELETE /properties/:id handler. -/
inductive DeleteResult where
  | invalidInput : DeleteResult
  | notFound : DeleteResult
  | forbidden : DeleteResult
  | ok : RealEstateProperty → DeleteResult
deriving Repr, DecidableEq

/-- HTTP status the delete handler sends for each branch; the unknown-id
branch sends 400 (line 192), not 404. -/
def DeleteResult.status : DeleteResult → Nat
  | .invalidInput => 400
  | .notFound => 400
  | .forbidden => 400
  | .ok _ => 200

/-- DELETE /properties/:id handler (lines 175-202).  The record is removed
first; if the share list has more than one entry or the record's owner field
differs from the requesting username, the record is re-inserted under its own
`id` field and the request fails. -/
def deleteHandler (props : Store RealEstateProperty) (id username : String) :
    DeleteResult × Store RealEstateProperty :=
  if id = "" then (.invalidInput, props)
  else if username = "" then (.invalidInput, props)
  else
    match storeGet props id with
    | none => (.notFound, props)
    | some p =>
      let props2 := storeRemove props id
      if p.tokenizedShares.length > 1 ∨ p.owner ≠ username then
        (.forbidden, storeInsert props2 p.id p)
      else
        (.ok p, props2)

/-- Specification-side predicate, written from the spec's words for the
ownership rule: `o` is the name of the entry of `l` whose count is maximal,
taking the earliest-inserted entry among ties — i.e. some position `i` holds
name `o`, every entry's count is at most the count at `i`, and every entry
strictly before `i` has a strictly smaller count. -/
def specFirstMaxHolder (l : List (String × Int)) (o : String) : Prop :=
  ∃ i : Fin l.length, (l.get i).1 = o ∧
    (∀ j : Fin l.length, (l.get j).2 ≤ (l.get i).2) ∧
    (∀ j : Fin l.length, (j : ℕ) < (i : ℕ) → (l.get j).2 < (l.get i).2)

instance (l : List (String × Int)) (o : String) :
    Decidable (specFirstMaxHolder l o) := by
  unfold specFirstMaxHolder
  infer_instance

/-- A scan over entries none of which beats the running maximum leaves the
candidate owner unchanged. -/
theorem ownerScan_const (l : List (String × Int)) :
    ∀ (o : String) (m : Int), (∀ e ∈ l, e.2 ≤ m) → ownerScan o m l = o := by
  induction l with
  | nil => intro o m _; rfl
  | cons e rest ih =>
    intro o m h
    have he : ¬ e.2 > m := not_lt.mpr (h e (List.mem_cons_self e rest))
    have : ownerScan o m (e :: rest) = ownerScan o m rest := by
      simp [ownerScan, he]
    rw [this]
    exact ih o m (fun x hx => h x (List.mem_cons_of_mem e hx))

/-- Correctness of the ownership scan: when some entry strictly beats the
initial running maximum `m`, the scan returns the name at the earliest
position whose count is maximal (ties broken in favour of the earlier entry,
since only strictly greater counts replace the running maximum). -/
theorem ownerScan_spec (l : List (String × Int)) :
    ∀ (o : String) (m : Int), (∃ e ∈ l, m < e.2) →
    ∃ i : Fin l.length, (l.get i).1 = ownerScan o m l ∧ m < (l.get i).2 ∧
      (∀ j : Fin l.length, (l.get j).2 ≤ (l.get i).2) ∧
      (∀ j : Fin l.length, (j : ℕ) < (i : ℕ) → (l.get j).2 < (l.get i).2) := by
  induction l with
  | nil => intro o m h; simp at h
  | cons e rest ih =>
    intro o m h
    by_cases he : m < e.2
    · have hsc : ownerScan o m (e :: rest) = ownerScan e.1 e.2 rest := by
        simp [ownerScan, he]
      by_cases hr : ∃ e2 ∈ rest, e.2 < e2.2
      · obtain ⟨i, h1, h2, h3, h4⟩ := ih e.1 e.2 hr
        refine ⟨i.succ, ?_, ?_, ?_, ?_⟩
        · simpa [hsc] using h1
        · simpa using lt_trans he h2
        · intro j
          induction j using Fin.cases with
          | zero => simpa using le_of_lt h2
          | succ k => simpa using h3 k
        · intro j hj
          induction j using Fin.cases with
          | zero => simpa using h2
          | succ k =>
            have hk : (k : ℕ) < (i : ℕ) := by simpa using hj
            simpa using h4 k hk
      · push_neg at hr
        have hc : ownerScan e.1 e.2 rest = e.1 := ownerScan_const rest e.1 e.2 hr
        refine ⟨⟨0, by simp⟩, ?_, ?_, ?_, ?_⟩
        · simp [hsc, hc]
        · simpa using he
        · intro j
          induction j using Fin.cases with
          | zero => simp
          | succ k => simpa using hr (rest.get k) (rest.get_mem ..)
        · intro j hj
          induction j using Fin.cases with
          | zero => simp at hj
          | succ k => simp at hj
    · have hsc : ownerScan o m (e :: rest) = ownerScan o m rest := by
        simp [ownerScan, he]
      obtain ⟨x, hx, hxm⟩ := h
      rcases List.mem_cons.mp hx with hxe | hxr
      · exact absurd (hxe ▸ hxm) he
      · obtain ⟨i, h1, h2, h3, h4⟩ := ih o m ⟨x, hxr, hxm⟩
        have hem : e.2 ≤ m := not_lt.mp he
        refine ⟨i.succ, ?_, ?_, ?_, ?_⟩
        · simpa [hsc] using h1
        · simpa using h2
        · intro j
          induction j using Fin.cases with
          | zero => simpa using le_of_lt (lt_of_le_of_lt hem h2)
          | succ k => simpa using h3 k
        · intro j hj
          induction j using Fin.cases with
          | zero => simpa using lt_of_le_of_lt hem h2
          | succ k =>
            have hk : (k : ℕ) < (i : ℕ) := by simpa using hj
            simpa using h4 k hk

/-- A successful `fromShares` scan means the scanned list holds an entry with
name `frm` and exactly the returned count. -/
theorem lookupFromShares_mem (frm : String) (v : Int) (l : List (String × Int)) :
    lookupFromShares frm l = some v → (frm, v) ∈ l := by
  have aux : ∀ (l2 : List (String × Int)) (acc : Option Int),
      l2.foldl (fun acc e => if e.1 = frm then some e.2 else acc) acc = some v →
      (frm, v) ∈ l2 ∨ acc = some v := by
    intro l2
    induction l2 with
    | nil => intro acc h; exact Or.inr h
    | cons e rest ih =>
      intro acc h
      rcases ih _ h with hmem | hacc
      · exact Or.inl (List.mem_cons_of_mem e hmem)
      · by_cases hef : e.1 = frm
        · simp only [hef, if_true] at hacc
          have : e = (frm, v) := by
            cases e with
            | mk a b => simp at hef hacc; simp [hef, hacc]
          exact Or.inl (this ▸ List.mem_cons_self e rest)
        · simp only [hef, if_false] at hacc
          exact Or.inr hacc
  intro h
  rcases aux l none h with hmem | hacc
  · exact hmem
  · simp at hacc

/-- After the update loop of a transfer that passed the insufficiency check,
some entry of the updated share list has a non-negative count: the debited
last entry of `frm` (count `fs - sh ≥ 0`), or the pushed entry (count
`sh > 0`). -/
theorem updateShares_has_nonneg (frm dst : String) (sh fs : Int)
    (l : List (String × Int)) (hl : lookupFromShares frm l = some fs)
    (hfs : sh ≤ fs) :
    ∃ e ∈ updateShares frm dst sh l, 0 ≤ e.2 := by
  have hm := lookupFromShares_mem frm fs l hl
  have hent : updateSharesEntry frm dst sh (frm, fs) = ("name", fs - sh) := by
    simp [updateSharesEntry]
  refine ⟨("name", fs - sh), ?_, by omega⟩
  unfold updateShares
  have hmap : ("name", fs - sh) ∈ l.map (updateSharesEntry frm dst sh) :=
    hent ▸ List.mem_map_of_mem (updateSharesEntry frm dst sh) hm
  split
  · exact hmap
  · exact List.mem_append_left _ hmap

/-- Claim C1: for every successful transferShares operation, after the
operation the property's owner field equals the holder whose share count is
strictly maximal in the tokenizedShares list, and among ties the
earliest-inserted holder wins (the scan only replaces the running maximum on
strictly greater counts). -/
theorem C1_transfer_owner_is_first_max (users : Store User)
    (props : Store RealEstateProperty) (id frm dst : String)
    (shares : Option Int) (p2 : RealEstateProperty)
    (s2 : Store RealEstateProperty)
    (h : transferHandler users props id frm dst shares = (.ok p2, s2)) :
    specFirstMaxHolder p2.tokenizedShares p2.owner := by
  unfold transferHandler at h
  split at h
  · simp at h
  · split at h
    · simp at h
    · rename_i sh
      split at h
      · simp at h
      · rename_i hvalid
        split at h
        · simp at h
        · rename_i p hget
          split at h
          · simp at h
          · rename_i fs hlook
            split at h
            · simp at h
            · rename_i hfs
              split at h
              · simp only [Prod.mk.injEq, TransferResult.ok.injEq] at h
                obtain ⟨hp2, _⟩ := h
                subst hp2
                have hle : sh ≤ fs := not_lt.mp hfs
                obtain ⟨e, he, he0⟩ :=
                  updateShares_has_nonneg frm dst sh fs p.tokenizedShares hlook hle
                obtain ⟨i, h1, _, h3, h4⟩ :=
                  ownerScan_spec (updateShares frm dst sh p.tokenizedShares)
                    p.owner (-1) ⟨e, he, by omega⟩
                exact ⟨i, h1, h3, h4⟩
              · simp at h

/-- Test fixture: a registered user with zero balance. -/
def mkTestUser (n : String) : User :=
  { username := n, email := n ++ "@mail", password := "pw", walletTokens := 0 }

/-- Test fixture: a user store with alice, bob and carol registered. -/
def testUsers : Store User :=
  [("alice", mkTestUser "alice"), ("bob", mkTestUser "bob"),
   ("carol", mkTestUser "carol")]

/-- Test fixture: the property alice creates with 100 shares. -/
def testProp : RealEstateProperty :=
  createProperty "addr1" "alice" "deed1" 100 "p1" 0

/-- Test fixture: the property store right after the creation. -/
def testProps : Store RealEstateProperty := [("p1", testProp)]

/-- First transfer of the chain: 60 shares alice to bob. -/
def chainStep1 : TransferResult × Store RealEstateProperty :=
  transferHandler testUsers testProps "p1" "alice" "bob" (some 60)

/-- Second transfer of the chain: 30 shares bob to alice. -/
def chainStep2 : TransferResult × Store RealEstateProperty :=
  transferHandler testUsers chainStep1.2 "p1" "bob" "alice" (some 30)

/-- Third transfer of the chain: 10 shares from the holder literally named
"name" (which the buggy update loop created) to carol. -/
def chainStep3 : TransferResult × Store RealEstateProperty :=
  transferHandler testUsers chainStep2.2 "p1" "name" "carol" (some 10)

/-- The property produced by the first chain transfer: the debited entry is
keyed by the literal string "name", not by "alice". -/
def transferredOnce : RealEstateProperty :=
  { id := "p1", address := "addr1", owner := "bob",
    tokenizedShares := [("name", 40), ("bob", 60)],
    transactionHistory := ["Property created by alice",
      "60 transferred from alice to bob"],
    deedURL := "deed1", createdAt := 0, updatedAt := none }

/-- The property after the second chain transfer: two entries keyed "name". -/
def reachedProp : RealEstateProperty :=
  { id := "p1", address := "addr1", owner := "name",
    tokenizedShares := [("name", 40), ("name", 30), ("alice", 30)],
    transactionHistory := ["Property created by alice",
      "60 transferred from alice to bob", "30 transferred from bob to alice"],
    deedURL := "deed1", createdAt := 0, updatedAt := none }

/-- The property after the third chain transfer: both "name" entries were
debited, so the share sum dropped from 100 to 90. -/
def finalChainProp : RealEstateProperty :=
  { id := "p1", address := "addr1", owner := "name",
    tokenizedShares := [("name", 30), ("name", 20), ("alice", 30), ("carol", 10)],
    transactionHistory := ["Property created by alice",
      "60 transferred from alice to bob", "30 transferred from bob to alice",
      "10 transferred from name to carol"],
    deedURL := "deed1", createdAt := 0, updatedAt := none }

/-- Witness for C1 at a concrete input: the first chain transfer succeeds and
its resulting owner "bob" is the first maximal holder of the resulting share
list. -/
theorem C1_transfer_owner_is_first_max_witness :
    specFirstMaxHolder transferredOnce.tokenizedShares transferredOnce.owner :=
  C1_transfer_owner_is_first_max testUsers testProps "p1" "alice" "bob"
    (some 60) transferredOnce (storeInsert testProps "p1" transferredOnce)
    (by decide)

/-- Claim C2 is violated by the code: starting from the freshly created
property (share sum 100), the three chain transfers all succeed, yet after
the third one the share sum is 90.  The debit loop rewrites every matching
entry to the literal key "name" (missing `${}` in the template at line 257),
so two distinct holders collapse onto the key "name"; a later transfer from
"name" then debits both entries while the insufficiency check read only the
last one. -/
theorem C2_sum_not_invariant :
    sumShares testProp.tokenizedShares = 100 ∧
    chainStep1.1 = TransferResult.ok transferredOnce ∧
    chainStep2.1 = TransferResult.ok reachedProp ∧
    sumShares reachedProp.tokenizedShares = 100 ∧
    chainStep3.1 = TransferResult.ok finalChainProp ∧
    sumShares finalChainProp.tokenizedShares = 90 := by
  refine ⟨by decide, by decide, by decide, by decide, by decide, by decide⟩

/-- Claim C3 is violated by the code: transferring 60 of alice's 100 shares
to bob succeeds, but the debited entry is stored under the literal key "name"
(the template at line 257 is missing `${}` around `name`), so no entry keyed
"alice" remains — the resulting list is [(\x22name\x22, 40), (\x22bob\x22, 60)] instead
of the claimed alice:40, bob:60. -/
theorem C3_from_entry_key_clobbered :
    chainStep1.1 = TransferResult.ok transferredOnce ∧
    transferredOnce.tokenizedShares = [("name", 40), ("bob", 60)] ∧
    lookupFromShares "alice" transferredOnce.tokenizedShares = none := by
  refine ⟨by decide, by decide, by decide⟩

/-- Claim C4: a well-formed transfer request (non-empty fields, positive
share count, existing property) for which the `fromShares` scan finds no
entry for `frm`, or a count strictly below the requested shares, fails with
the insufficient-shares error and leaves the property store untouched. -/
theorem C4_insufficient_shares_fails_unchanged (users : Store User)
    (props : Store RealEstateProperty) (id frm dst : String) (sh : Int)
    (p : RealEstateProperty) (hid : id ≠ "") (hfrm : frm ≠ "")
    (hdst : dst ≠ "") (hsh : 0 < sh) (hget : storeGet props id = some p)
    (hins : lookupFromShares frm p.tokenizedShares = none ∨
      ∃ fs, lookupFromShares frm p.tokenizedShares = some fs ∧ fs < sh) :
    transferHandler users props id frm dst (some sh) =
      (TransferResult.insufficientShares, props) := by
  have hval : ¬ (frm = "" ∨ dst = "" ∨ sh ≤ 0) := by
    push_neg
    exact ⟨hfrm, hdst, hsh⟩
  rcases hins with hnone | ⟨fs, hsome, hlt⟩
  · simp [transferHandler, hid, hval, hget, hnone]
  · simp [transferHandler, hid, hval, hget, hsome, hlt]

/-- Witness for C4 at a concrete input: bob holds nothing in the fresh
property, so a transfer of 10 shares from bob fails with the
insufficient-shares error and the store is unchanged. -/
theorem C4_insufficient_shares_fails_unchanged_witness :
    transferHandler testUsers testProps "p1" "bob" "alice" (some 10) =
      (TransferResult.insufficientShares, testProps) :=
  C4_insufficient_shares_fails_unchanged testUsers testProps "p1" "bob"
    "alice" 10 testProp (by decide) (by decide) (by decide) (by decide)
    (by decide) (Or.inl (by decide))

/-- Invariant of every property record reachable through the handlers: the
share list is non-empty, and when it has exactly one entry the owner field
equals that entry's name.  Creation establishes it and update/transfer
preserve it (see the preservation theorems below). -/
def propInvariant (p : RealEstateProperty) : Prop :=
  p.tokenizedShares ≠ [] ∧
  (p.tokenizedShares.length = 1 → p.owner = p.tokenizedShares.headI.1)

instance (p : RealEstateProperty) : Decidable (propInvariant p) := by
  unfold propInvariant
  infer_instance

/-- Creation establishes the reachable-property invariant. -/
theorem createProperty_invariant (address owner deedURL : String)
    (shares : Int) (id : String) (now : Int) :
    propInvariant (createProperty address owner deedURL shares id now) := by
  constructor <;> simp [createProperty]

/-- A list containing two distinct elements has length at least two. -/
theorem two_mem_le_length {α : Type} (l : List α) (a b : α) (ha : a ∈ l)
    (hb : b ∈ l) (hab : a ≠ b) : 2 ≤ l.length := by
  match l with
  | [] => simp at ha
  | [x] =>
    rw [List.mem_singleton] at ha hb
    exact absurd (ha.trans hb.symm) hab
  | x :: y :: rest => simp only [List.length_cons]; omega

/-- A successful transfer always leaves at least two entries in the share
list: either a fresh entry for the destination is pushed onto a non-empty
list, or the credited destination entry and the debited source entry are two
distinct existing entries. -/
theorem transfer_two_entries (users : Store User)
    (props : Store RealEstateProperty) (id frm dst : String)
    (shares : Option Int) (p2 : RealEstateProperty)
    (s2 : Store RealEstateProperty)
    (h : transferHandler users props id frm dst shares = (.ok p2, s2)) :
    2 ≤ p2.tokenizedShares.length := by
  unfold transferHandler at h
  split at h
  · simp at h
  · split at h
    · simp at h
    · rename_i sh
      split at h
      · simp at h
      · split at h
        · simp at h
        · rename_i p hget
          split at h
          · simp at h
          · rename_i fs hlook
            split at h
            · simp at h
            · split at h
              · simp only [Prod.mk.injEq, TransferResult.ok.injEq] at h
                obtain ⟨hp2, _⟩ := h
                subst hp2
                have hmem := lookupFromShares_mem frm fs p.tokenizedShares hlook
                show 2 ≤ (updateShares frm dst sh p.tokenizedShares).length
                unfold updateShares
                split
                · rename_i hset
                  rw [isToSharesSet] at hset
                  simp only [List.any_eq_true, decide_eq_true_eq] at hset
                  obtain ⟨e, he, hef, hed⟩ := hset
                  have hne : e ≠ (frm, fs) := by
                    intro hcontra
                    exact hef (by rw [hcontra])
                  have h2 := two_mem_le_length p.tokenizedShares e (frm, fs)
                    he hmem hne
                  simpa using h2
                · rename_i hset
                  have h1 : 1 ≤ p.tokenizedShares.length :=
                    List.length_pos.mpr (List.ne_nil_of_mem hmem)
                  simp only [List.length_append, List.length_map,
                    List.length_singleton]
                  omega
              · simp at h

/-- A successful transfer preserves the reachable-property invariant (the
resulting share list has at least two entries, so the singleton clause is
vacuous). -/
theorem transfer_preserves_invariant (users : Store User)
    (props : Store RealEstateProperty) (id frm dst : String)
    (shares : Option Int) (p2 : RealEstateProperty)
    (s2 : Store RealEstateProperty)
    (h : transferHandler users props id frm dst shares = (.ok p2, s2)) :
    propInvariant p2 := by
  have h2 := transfer_two_entries users props id frm dst shares p2 s2 h
  constructor
  · intro hnil
    rw [hnil] at h2
    simp at h2
  · intro hlen
    omega

/-- A successful update preserves the reachable-property invariant: it keeps
the share list and the owner field. -/
theorem update_preserves_invariant (users : Store User)
    (props : Store RealEstateProperty) (id owner address deedURL : String)
    (now : Int) (p2 : RealEstateProperty)
    (hinvs : ∀ p, storeGet props id = some p → propInvariant p)
    (h : (updateHandler users props id owner address deedURL now).1 =
      .ok p2) :
    propInvariant p2 := by
  unfold updateHandler at h
  split at h
  · simp at h
  · split at h
    · simp at h
    · split at h
      · split at h
        · simp at h
        · rename_i p hget
          split at h
          · simp at h
          · simp only [UpdateResult.ok.injEq] at h
            subst h
            have hp := hinvs p hget
            exact hp
      · simp at h

/-- Claim C5: under the reachable-property invariant, deleting an existing
property succeeds exactly when its share list has exactly one entry and that
entry's name equals the requesting username.  (The code compares the owner
field and entry count; the invariant makes that equivalent to the claim's
entry-key comparison.) -/
theorem C5_delete_iff_sole_holder (props : Store RealEstateProperty)
    (id username : String) (p : RealEstateProperty) (hid : id ≠ "")
    (hu : username ≠ "") (hget : storeGet props id = some p)
    (hinv : propInvariant p) :
    (deleteHandler props id username).1 = DeleteResult.ok p ↔
      (p.tokenizedShares.length = 1 ∧ p.tokenizedShares.headI.1 = username) := by
  have hred : deleteHandler props id username =
      (if p.tokenizedShares.length > 1 ∨ p.owner ≠ username
        then (DeleteResult.forbidden, storeInsert (storeRemove props id) p.id p)
        else (DeleteResult.ok p, storeRemove props id)) := by
    unfold deleteHandler
    rw [if_neg hid, if_neg hu, hget]
  rw [hred]
  by_cases hc : p.tokenizedShares.length > 1 ∨ p.owner ≠ username
  · rw [if_pos hc]
    simp only [Prod.fst]
    constructor
    · intro hcontra
      simp at hcontra
    · rintro ⟨hlen, hkey⟩
      have howner := hinv.2 hlen
      rcases hc with hlen2 | hown
      · omega
      · exact absurd (howner.trans hkey) hown
  · rw [if_neg hc]
    push_neg at hc
    obtain ⟨hlen, hown⟩ := hc
    have h1 : 1 ≤ p.tokenizedShares.length :=
      List.length_pos.mpr hinv.1
    have hlen1 : p.tokenizedShares.length = 1 := by omega
    constructor
    · intro _
      exact ⟨hlen1, (hinv.2 hlen1).symm.trans hown⟩
    · intro _
      rfl

/-- Witness for C5 at a concrete input: alice is the sole holder of the fresh
property, and deleting it as alice indeed succeeds. -/
theorem C5_delete_iff_sole_holder_witness :
    (deleteHandler testProps "p1" "alice").1 = DeleteResult.ok testProp ↔
      (testProp.tokenizedShares.length = 1 ∧
        testProp.tokenizedShares.headI.1 = "alice") :=
  C5_delete_iff_sole_holder testProps "p1" "alice" testProp (by decide)
    (by decide) (by decide) (by decide)

/-- Reading back the key just inserted returns the inserted value. -/
theorem storeGet_insert_self {α : Type} (s : Store α) (k : String) (v : α) :
    storeGet (storeInsert s k v) k = some v := by
  simp [storeGet, storeInsert]

/-- Counterexample to C6: bob is a registered user distinct from the current
owner alice, yet the update request is rejected by the ownership comparison
at line 159 ("Property can only be updated by its owner") and the store is
unchanged — the code does require the submitted owner to match. -/
theorem C6_counterexample_owner_match_required :
    userRegistered testUsers "bob" = true ∧
    storeGet testProps "p1" = some testProp ∧
    testProp.owner ≠ "bob" ∧
    updateHandler testUsers testProps "p1" "bob" "addr2" "deed2" 5 =
      (UpdateResult.notOwner, testProps) ∧
    (updateHandler testUsers testProps "p1" "bob" "addr2" "deed2" 5).1.status
      = 400 := by
  refine ⟨by decide, by decide, by decide, by decide, by decide⟩

/-- Claim C6 as amended: an update on an existing property by a registered
owner succeeds exactly when the submitted owner equals the property's current
owner; on success it replaces address, deedURL and updatedAt and keeps every
other field (in particular the owner) unchanged, and on an owner mismatch it
fails leaving the store untouched. -/
theorem C6_amended_update_requires_owner_match (users : Store User)
    (props : Store RealEstateProperty) (id owner address deedURL : String)
    (now : Int) (p : RealEstateProperty) (hid : id ≠ "") (ho : owner ≠ "")
    (ha : address ≠ "") (hd : deedURL ≠ "")
    (hreg : userRegistered users owner = true)
    (hget : storeGet props id = some p) :
    (p.owner = owner →
      (updateHandler users props id owner address deedURL now).1 =
        UpdateResult.ok { p with
          address := address
          deedURL := deedURL
          updatedAt := some now }) ∧
    (p.owner ≠ owner →
      updateHandler users props id owner address deedURL now =
        (UpdateResult.notOwner, props)) := by
  have hval : ¬ (owner = "" ∨ address = "" ∨ deedURL = "") := by
    push_neg
    exact ⟨ho, ha, hd⟩
  constructor
  · intro hm
    simp [updateHandler, hid, hval, hreg, hget, hm]
  · intro hm
    simp [updateHandler, hid, hval, hreg, hget, hm]

/-- Witness for the amended C6 at a concrete input: alice updating her own
property succeeds and yields the record with the new address, deed and
timestamp and the owner untouched. -/
theorem C6_amended_update_requires_owner_match_witness :
    (updateHandler testUsers testProps "p1" "alice" "addr2" "deed2" 5).1 =
      UpdateResult.ok { testProp with
        address := "addr2"
        deedURL := "deed2"
        updatedAt := some 5 } :=
  (C6_amended_update_requires_owner_match testUsers testProps "p1" "alice"
    "addr2" "deed2" 5 testProp (by decide) (by decide) (by decide) (by decide)
    (by decide) (by decide)).1 (by decide)

/-- Counterexample to C7: a missing amount is answered on the branch the code
sends with status 404 (line 72), and an unknown username on the branch sent
with status 400 (line 82) — the two statuses are the opposite of the claim. -/
theorem C7_counterexample_statuses_swapped :
    (depositHandler testUsers "alice" none).1 = DepositResult.invalidAmount ∧
    (depositHandler testUsers "alice" none).1.status = 404 ∧
    storeGet testUsers "zoe" = none ∧
    (depositHandler testUsers "zoe" (some 5)).1 = DepositResult.userMissing ∧
    (depositHandler testUsers "zoe" (some 5)).1.status = 400 := by
  refine ⟨by decide, by decide, by decide, by decide, by decide⟩

/-- Claim C7 as amended: a deposit with a missing or non-numeric (or zero)
amount fails on the invalid-amount branch with HTTP 404, while a deposit of a
valid amount for an unknown username fails on the missing-user branch with
HTTP 400 — the statuses the code sends on the two branches are swapped with
respect to the error taxonomy. -/
theorem C7_amended_deposit_statuses (users : Store User) (username : String)
    (a : Int) (hu : username ≠ "") (ha : a ≠ 0)
    (hmiss : storeGet users username = none) :
    (depositHandler users username none).1 = DepositResult.invalidAmount ∧
    (depositHandler users username none).1.status = 404 ∧
    (depositHandler users username (some a)).1 = DepositResult.userMissing ∧
    (depositHandler users username (some a)).1.status = 400 := by
  have hval : ¬ (username = "" ∨ (some a : Option Int) = none ∨
      (some a : Option Int) = some 0) := by
    push_neg
    refine ⟨hu, by simp, by simp [ha]⟩
  refine ⟨by simp [depositHandler], by simp [depositHandler, DepositResult.status],
    ?_, ?_⟩
  · simp [depositHandler, hu, ha, hmiss]
  · simp [depositHandler, hu, ha, hmiss, DepositResult.status]

/-- Witness for the amended C7 at a concrete input: the user "zoe" is not
registered, so a missing amount yields 404 and a deposit of 5 yields 400. -/
theorem C7_amended_deposit_statuses_witness :
    (depositHandler testUsers "zoe" none).1 = DepositResult.invalidAmount ∧
    (depositHandler testUsers "zoe" none).1.status = 404 ∧
    (depositHandler testUsers "zoe" (some 5)).1 = DepositResult.userMissing ∧
    (depositHandler testUsers "zoe" (some 5)).1.status = 400 :=
  C7_amended_deposit_statuses testUsers "zoe" 5 (by decide) (by decide)
    (by decide)

/-- Every response branch of the update handler on an unknown id carries
status 400. -/
theorem updateHandler_unknown_id_400 (users : Store User)
    (props : Store RealEstateProperty) (id owner address deedURL : String)
    (now : Int) (h : storeGet props id = none) :
    (updateHandler users props id owner address deedURL now).1.status = 400 := by
  unfold updateHandler
  rw [h]
  split
  · rfl
  · split
    · rfl
    · split
      · rfl
      · rfl

/-- Every response branch of the delete handler on an unknown id carries
status 400. -/
theorem deleteHandler_unknown_id_400 (props : Store RealEstateProperty)
    (id username : String) (h : storeGet props id = none) :
    (deleteHandler props id username).1.status = 400 := by
  unfold deleteHandler
  rw [h]
  split
  · rfl
  · split
    · rfl
    · rfl

/-- Every response branch of the transfer handler on an unknown id carries
status 400. -/
theorem transferHandler_unknown_id_400 (users : Store User)
    (props : Store RealEstateProperty) (id frm dst : String)
    (shares : Option Int) (h : storeGet props id = none) :
    (transferHandler users props id frm dst shares).1.status = 400 := by
  unfold transferHandler
  rw [h]
  split
  · rfl
  · split
    · rfl
    · split
      · rfl
      · rfl

/-- Counterexample to C8: "p2" is absent from the store and the otherwise
well-formed PUT, DELETE and transfer requests on it are all answered with
status 400 (the handlers send the not-found message with `res.status(400)` at
lines 156, 192 and 224), not 404. -/
theorem C8_counterexample_not_found_is_400 :
    storeGet testProps "p2" = none ∧
    (updateHandler testUsers testProps "p2" "alice" "addr2" "deed2" 5).1 =
      UpdateResult.notFound ∧
    (updateHandler testUsers testProps "p2" "alice" "addr2" "deed2" 5).1.status
      = 400 ∧
    (deleteHandler testProps "p2" "alice").1 = DeleteResult.notFound ∧
    (deleteHandler testProps "p2" "alice").1.status = 400 ∧
    (transferHandler testUsers testProps "p2" "alice" "bob" (some 1)).1 =
      TransferResult.notFound ∧
    (transferHandler testUsers testProps "p2" "alice" "bob" (some 1)).1.status
      = 400 := by
  refine ⟨by decide, by decide, by decide, by decide, by decide, by decide,
    by decide⟩

/-- Claim C8 as amended: every PUT /properties/:id, DELETE /properties/:id or
POST /transfer/:id request whose id is not in the property store is answered
with HTTP status 400 (whatever validation branch rejects it), never 404. -/
theorem C8_amended_unknown_id_gives_400 (users : Store User)
    (props : Store RealEstateProperty) (id owner address deedURL : String)
    (now : Int) (username frm dst : String) (shares : Option Int)
    (h : storeGet props id = none) :
    (updateHandler users props id owner address deedURL now).1.status = 400 ∧
    (deleteHandler props id username).1.status = 400 ∧
    (transferHandler users props id frm dst shares).1.status = 400 :=
  ⟨updateHandler_unknown_id_400 users props id owner address deedURL now h,
   deleteHandler_unknown_id_400 props id username h,
   transferHandler_unknown_id_400 users props id frm dst shares h⟩

/-- Witness for the amended C8 at a concrete input: "p2" is unknown and all
three handlers answer with status 400. -/
theorem C8_amended_unknown_id_gives_400_witness :
    (updateHandler testUsers testProps "p2" "alice" "addr2" "deed2" 5).1.status
      = 400 ∧
    (deleteHandler testProps "p2" "alice").1.status = 400 ∧
    (transferHandler testUsers testProps "p2" "alice" "bob" (some 1)).1.status
      = 400 :=
  C8_amended_unknown_id_gives_400 testUsers testProps "p2" "alice" "addr2"
    "deed2" 5 "alice" "alice" "bob" (some 1) (by decide)

/-- Claim C9: depositing `a` and then `b` for a registered user leaves the
same wallet balance as depositing `a + b` in one call (when `a + b = 0` the
single call is rejected as a falsy amount and leaves the balance untouched,
which is again the same balance). -/
theorem C9_deposit_additive (users : Store User) (username : String)
    (u : User) (a b : Int) (hreg : storeGet users username = some u)
    (ha : a ≠ 0) (hb : b ≠ 0) :
    balanceOf (depositHandler (depositHandler users username (some a)).2
        username (some b)).2 username =
      balanceOf (depositHandler users username (some (a + b))).2 username := by
  by_cases hu : username = ""
  · simp [depositHandler, hu]
  · have h1 : (depositHandler users username (some a)).2 =
        storeInsert users username { u with walletTokens := u.walletTokens + a } := by
      simp [depositHandler, hu, ha, hreg]
    rw [h1]
    have h2 : storeGet (storeInsert users username
        { u with walletTokens := u.walletTokens + a }) username =
        some { u with walletTokens := u.walletTokens + a } :=
      storeGet_insert_self users username _
    by_cases hab : a + b = 0
    · have hb2 : (depositHandler (storeInsert users username
          { u with walletTokens := u.walletTokens + a }) username (some b)).2 =
          storeInsert (storeInsert users username
            { u with walletTokens := u.walletTokens + a }) username
            { u with walletTokens := u.walletTokens + a + b } := by
        simp [depositHandler, hu, hb, h2]
      rw [hb2]
      have hr : (depositHandler users username (some (a + b))).2 = users := by
        simp [depositHandler, hab]
      rw [hr]
      simp only [balanceOf, storeGet_insert_self, hreg, Option.map_some]
      have : u.walletTokens + a + b = u.walletTokens := by omega
      rw [this]
    · have hb2 : (depositHandler (storeInsert users username
          { u with walletTokens := u.walletTokens + a }) username (some b)).2 =
          storeInsert (storeInsert users username
            { u with walletTokens := u.walletTokens + a }) username
            { u with walletTokens := u.walletTokens + a + b } := by
        simp [depositHandler, hu, hb, h2]
      rw [hb2]
      have hr : (depositHandler users username (some (a + b))).2 =
          storeInsert users username
            { u with walletTokens := u.walletTokens + (a + b) } := by
        simp [depositHandler, hu, hab, hreg]
      rw [hr]
      simp only [balanceOf, storeGet_insert_self, Option.map_some]
      have : u.walletTokens + a + b = u.walletTokens + (a + b) := by omega
      rw [this]

/-- Witness for C9 at a concrete input: alice starts at balance 0; depositing
3 then 4 ends at the same balance as depositing 7. -/
theorem C9_deposit_additive_witness :
    balanceOf (depositHandler (depositHandler testUsers "alice" (some 3)).2
        "alice" (some 4)).2 "alice" =
      balanceOf (depositHandler testUsers "alice" (some (3 + 4))).2 "alice" :=
  C9_deposit_additive testUsers "alice" (mkTestUser "alice") 3 4 (by decide)
    (by decide) (by decide)

/-- Claim C10: a delete request on an existing property that fails the
authorization check (more than one share entry, or a caller different from
the owner field) removes the record and re-inserts it unchanged under its own
id, so the store still maps the id to the very same record. -/
theorem C10_failed_delete_restores (props : Store RealEstateProperty)
    (id username : String) (p : RealEstateProperty) (hid : id ≠ "")
    (hu : username ≠ "") (hget : storeGet props id = some p)
    (hpid : p.id = id)
    (hauth : p.tokenizedShares.length > 1 ∨ p.owner ≠ username) :
    (deleteHandler props id username).1 = DeleteResult.forbidden ∧
    storeGet (deleteHandler props id username).2 id = storeGet props id := by
  have hred : deleteHandler props id username =
      (DeleteResult.forbidden, storeInsert (storeRemove props id) p.id p) := by
    unfold deleteHandler
    rw [if_neg hid, if_neg hu, hget]
    show (if p.tokenizedShares.length > 1 ∨ p.owner ≠ username
        then (DeleteResult.forbidden, storeInsert (storeRemove props id) p.id p)
        else (DeleteResult.ok p, storeRemove props id)) = _
    rw [if_pos hauth]
  rw [hred]
  refine ⟨rfl, ?_⟩
  rw [hpid, hget]
  exact storeGet_insert_self (storeRemove props id) id p

/-- Witness for C10 at a concrete input: bob is not the owner of the fresh
property, so the delete fails and "p1" still maps to the same record. -/
theorem C10_failed_delete_restores_witness :
    (deleteHandler testProps "p1" "bob").1 = DeleteResult.forbidden ∧
    storeGet (deleteHandler testProps "p1" "bob").2 "p1" =
      storeGet testProps "p1" :=
  C10_failed_delete_restores testProps "p1" "bob" testProp (by decide)
    (by decide) (by decide) (by decide) (Or.inr (by decide))

/-- Invariant of the property store: every record is filed under its own
`id` field.  Creation inserts under `property.id`, and the theorems below
show every handler preserves it, which justifies assuming it for a stored
record. -/
def storeIdInvariant (props : Store RealEstateProperty) : Prop :=
  ∀ e ∈ props, e.2.id = e.1

/-- Inserting a record under its own id preserves the store-id invariant. -/
theorem storeInsert_idInv (props : Store RealEstateProperty) (k : String)
    (v : RealEstateProperty) (hv : v.id = k) (hs : storeIdInvariant props) :
    storeIdInvariant (storeInsert props k v) := by
  intro e he
  rcases List.mem_cons.mp he with h1 | h2
  · rw [h1]
    exact hv
  · exact hs e (List.mem_of_mem_eraseP h2)

/-- Removing a record preserves the store-id invariant. -/
theorem storeRemove_idInv (props : Store RealEstateProperty) (k : String)
    (hs : storeIdInvariant props) : storeIdInvariant (storeRemove props k) :=
  fun e he => hs e (List.mem_of_mem_eraseP he)

/-- The transfer handler preserves the store-id invariant: on success it
inserts the updated record under that record's own id. -/
theorem transferHandler_preserves_idInv (users : Store User)
    (props : Store RealEstateProperty) (id frm dst : String)
    (shares : Option Int) (hs : storeIdInvariant props) :
    storeIdInvariant (transferHandler users props id frm dst shares).2 := by
  unfold transferHandler
  split
  · exact hs
  · split
    · exact hs
    · split
      · exact hs
      · split
        · exact hs
        · split
          · exact hs
          · split
            · exact hs
            · split
              · exact storeInsert_idInv _ _ _ rfl hs
              · exact hs

/-- The update handler preserves the store-id invariant: the updated record
keeps its id and is re-inserted under it. -/
theorem updateHandler_preserves_idInv (users : Store User)
    (props : Store RealEstateProperty) (id owner address deedURL : String)
    (now : Int) (hs : storeIdInvariant props) :
    storeIdInvariant (updateHandler users props id owner address deedURL now).2 := by
  unfold updateHandler
  split
  · exact hs
  · split
    · exact hs
    · split
      · split
        · exact hs
        · split
          · exact hs
          · exact storeInsert_idInv _ _ _ rfl hs
      · exact hs

/-- The delete handler preserves the store-id invariant: a rejected delete
re-inserts the removed record under that record's own id. -/
theorem deleteHandler_preserves_idInv (props : Store RealEstateProperty)
    (id username : String) (hs : storeIdInvariant props) :
    storeIdInvariant (deleteHandler props id username).2 := by
  unfold deleteHandler
  split
  · exact hs
  · split
    · exact hs
    · split
      · exact hs
      · split
        · exact storeInsert_idInv _ _ _ rfl (storeRemove_idInv props id hs)
        · exact storeRemove_idInv props id hs
